import Mathlib

/-!
Shallow embedding of the IME client coordination layer of `src/lib.rs`
(crate `xcb-imdkit-rs`): input-context lifecycle, position-update
coalescing, key-event filter/forward decisions and server-text decoding.

The Protocol Engine (the C library `xcb-imdkit`) is external: its verdicts
(the event filter, the compound-text conversion) enter as oracle inputs,
and every call the Rust code makes into it is recorded as an `Effect` in
an emitted trace.  Machine integers (`u32` window ids, `i16` coordinates,
`u8` response types) are modelled as `Nat` / `Int`; the only bit operation
the code performs on them is `response_type & !0x80` on a `u8`, which is
`&&& 0x7f` and agrees with the Rust semantics on every byte value.
-/

namespace XcbImdkit

/-- Constant `XCB_KEY_PRESS`, the key-press response type (`const XCB_KEY_PRESS: u8 = 2`). -/
def XCB_KEY_PRESS : Nat := 2

/-- Constant `XCB_KEY_RELEASE`, the key-release response type (`const XCB_KEY_RELEASE: u8 = 3`). -/
def XCB_KEY_RELEASE : Nat := 3

/-- Style bit `XCB_IM_PreeditCallbacks` (value from the C headers; the Rust
code never branches on it, it is only forwarded to context creation). -/
def PREEDIT_CALLBACKS : Nat := 2

/-- Mirrors `struct ImePos { win: u32, x: i16, y: i16 }`. -/
structure ImePos where
  win : Nat
  x : Int
  y : Int
deriving DecidableEq

/-- Which of the five user callback slots of `struct Callbacks` are
installed (`Option<Box<...>>` presence; the handlers themselves are opaque). -/
structure Callbacks where
  commit_string : Bool
  forward_event : Bool
  preedit_start : Bool
  preedit_draw : Bool
  preedit_done : Bool
deriving DecidableEq

/-- Default callbacks (`Callbacks::default()`): no handler installed. -/
def Callbacks.default : Callbacks :=
  { commit_string := false, forward_event := false, preedit_start := false
    preedit_draw := false, preedit_done := false }

/-- The mutable state of `struct ImeClient` (the `conn`/`im` raw handles are
identity-only and carry no state the claims mention). -/
structure ImeClient where
  ic : Option Nat
  callbacks : Callbacks
  input_style : Nat
  pos_cur : ImePos
  pos_req : ImePos
  is_processing_pos_update : Bool
  pos_update_queued : Bool
deriving DecidableEq

/-- Attributes passed to `xcb_xim_create_ic` / `xcb_xim_set_ic_values`,
in the order the varargs list names them. -/
inductive IcAttr where
  | clientWindow (w : Nat)
  | focusWindow (w : Nat)
  | preeditSpot (x y : Int)
deriving DecidableEq

/-- Calls the Rust code makes into the Protocol Engine or into user
callbacks, recorded as an emitted trace.  `completeCb` marks the arrival
of an `update_pos_callback` completion from the engine. -/
inductive Effect where
  | openReq
  | createIc (style : Nat) (attrs : List IcAttr)
  | setIcFocus (ic : Nat)
  | forwardEvent (ic : Nat) (responseType : Nat)
  | setIcValues (ic : Nat) (attrs : List IcAttr)
  | completeCb
  | userCommitString (win : Nat) (text : List Nat)
  | userForwardEvent (win : Nat) (responseType : Nat)
  | userPreeditStart (win : Nat)
  | userPreeditDraw (win : Nat)
  | userPreeditDone (win : Nat)
deriving DecidableEq

/-- The attribute list built by `ImeClient::send_pos_update`: window-binding
attributes (`XNClientWindow`, `XNFocusWindow`) plus the spot when
`pos_req.win != pos_cur.win`, only the nested spot-location otherwise. -/
def icValueAttrs (req cur : ImePos) : List IcAttr :=
  if req.win ≠ cur.win then
    [IcAttr.clientWindow req.win, IcAttr.focusWindow req.win,
     IcAttr.preeditSpot req.x req.y]
  else
    [IcAttr.preeditSpot req.x req.y]

/-- Source `ImeClient::try_open_ic`: returns early when a context exists, otherwise
calls `xcb_xim_open` (the state itself is unchanged either way). -/
def try_open_ic (s : ImeClient) : ImeClient × List Effect :=
  if s.ic.isSome then (s, [])
  else (s, [Effect.openReq])

/-- Source `ImeClient::send_pos_update`: sets the in-flight flag, issues one
`xcb_xim_set_ic_values` with the attributes of `icValueAttrs`, then sets
`pos_cur = pos_req`. -/
def send_pos_update (s : ImeClient) (ic : Nat) : ImeClient × List Effect :=
  let s1 := { s with is_processing_pos_update := true }
  ({ s1 with pos_cur := s1.pos_req },
   [Effect.setIcValues ic (icValueAttrs s1.pos_req s1.pos_cur)])

/-- Source `ImeClient::update_pos`: records the request in `pos_req`, then either
queues (in-flight), sends immediately, or triggers a context open. -/
def update_pos (s : ImeClient) (win : Nat) (x y : Int) :
    ImeClient × List Effect × Bool :=
  let s := { s with pos_req := { win := win, x := x, y := y } }
  match s.ic with
  | some ic =>
      if s.is_processing_pos_update then
        ({ s with pos_update_queued := true }, [], false)
      else
        let r := send_pos_update s ic
        (r.1, r.2, true)
  | none =>
      let r := try_open_ic s
      (r.1, r.2, false)

/-- Source `update_pos_callback`: the completion of a placement send.  If a newer
request is queued, clears the flag and performs another send with the
current `pos_req`; otherwise clears the in-flight flag. -/
def update_pos_callback (s : ImeClient) (ic : Nat) : ImeClient × List Effect :=
  if s.pos_update_queued then
    send_pos_update { s with pos_update_queued := false } ic
  else
    ({ s with is_processing_pos_update := false }, [])

/-- Source `ImeClient::process_event`: `filtered` is the verdict of
`xcb_xim_filter_event`, `responseType` the raw event's `response_type`
byte.  Mirrors the source exactly: the filtered branch falls through to
the final `false`. -/
def process_event (s : ImeClient) (responseType : Nat) (filtered : Bool) :
    ImeClient × List Effect × Bool :=
  if filtered = false then
    if responseType &&& 0x7f = XCB_KEY_PRESS ∨
       responseType &&& 0x7f = XCB_KEY_RELEASE then
      match s.ic with
      | some ic => (s, [Effect.forwardEvent ic responseType], true)
      | none =>
          let r := try_open_ic s
          (r.1, r.2, false)
    else
      (s, [], false)
  else
    (s, [], false)

/-- Source `open_callback`: on open completion, creates the input context carrying
the negotiated style, the requested window (as client and focus window) and
the requested spot, then sets `pos_cur = pos_req`. -/
def open_callback (s : ImeClient) : ImeClient × List Effect :=
  ({ s with pos_cur := s.pos_req },
   [Effect.createIc s.input_style
      [IcAttr.clientWindow s.pos_req.win, IcAttr.focusWindow s.pos_req.win,
       IcAttr.preeditSpot s.pos_req.x s.pos_req.y]])

/-- Source `create_ic_callback`: stores the new context handle and focuses it. -/
def create_ic_callback (s : ImeClient) (new_ic : Nat) : ImeClient × List Effect :=
  ({ s with ic := some new_ic }, [Effect.setIcFocus new_ic])

/-- Source `disconnected_callback`: `ime.ic.take()` and nothing else. -/
def disconnected_callback (s : ImeClient) : ImeClient :=
  { s with ic := none }

/-- Source `commit_string_callback`: invokes the user slot, if installed, with the
window of `pos_req` and the decoded text. -/
def commit_string_callback (s : ImeClient) (text : List Nat) :
    ImeClient × List Effect :=
  (s, if s.callbacks.commit_string then
        [Effect.userCommitString s.pos_req.win text] else [])

/-- Source `forward_event_callback`: invokes the user slot, if installed, with the
window of `pos_req` and the borrowed key event. -/
def forward_event_callback (s : ImeClient) (responseType : Nat) :
    ImeClient × List Effect :=
  (s, if s.callbacks.forward_event then
        [Effect.userForwardEvent s.pos_req.win responseType] else [])

/-- Source `preedit_start_callback`: invokes the user slot, if installed, with the
window of `pos_req`; the source contains no `input_style` check. -/
def preedit_start_callback (s : ImeClient) : ImeClient × List Effect :=
  (s, if s.callbacks.preedit_start then
        [Effect.userPreeditStart s.pos_req.win] else [])

/-- Source `preedit_draw_callback`: invokes the user slot, if installed, with the
window of `pos_req`; the source contains no `input_style` check. -/
def preedit_draw_callback (s : ImeClient) : ImeClient × List Effect :=
  (s, if s.callbacks.preedit_draw then
        [Effect.userPreeditDraw s.pos_req.win] else [])

/-- Source `preedit_done_callback`: invokes the user slot, if installed, with the
window of `pos_req`; the source contains no `input_style` check. -/
def preedit_done_callback (s : ImeClient) : ImeClient × List Effect :=
  (s, if s.callbacks.preedit_done then
        [Effect.userPreeditDone s.pos_req.win] else [])

/-- The negotiated text encoding (`xcb_xim_encoding_t`). -/
inductive XimEncoding where
  | utf8String
  | compoundText
deriving DecidableEq

/-- Source `xim_encoding_to_utf8`: UTF-8 passthrough, or compound-text conversion
through the external routine (`convert`); a null conversion result leaves
the buffer empty.  Bytes are modelled as `List Nat`. -/
def xim_encoding_to_utf8 (enc : XimEncoding) (ximStr : List Nat)
    (convert : List Nat → Option (List Nat)) : List Nat :=
  match enc with
  | XimEncoding.utf8String => ximStr
  | XimEncoding.compoundText =>
      match convert ximStr with
      | some utf8 => utf8
      | none => []

/-- The client as built by `ImeClient::unsafe_new`: no context, no callbacks
installed, zeroed placements, no update in flight and none queued. -/
def initClient (input_style : Nat) : ImeClient :=
  { ic := none
    callbacks := Callbacks.default
    input_style := input_style
    pos_cur := { win := 0, x := 0, y := 0 }
    pos_req := { win := 0, x := 0, y := 0 }
    is_processing_pos_update := false
    pos_update_queued := false }

/-- One interaction with the client: the two public methods, plus each
asynchronous callback the Protocol Engine can deliver. -/
inductive Op where
  | updatePos (win : Nat) (x y : Int)
  | processEvent (responseType : Nat) (filtered : Bool)
  | posUpdateDone (ic : Nat)
  | openDone
  | icCreated (new_ic : Nat)
  | disconnected
  | commitStringNotify (text : List Nat)
  | forwardEventNotify (responseType : Nat)
  | preeditStartNotify
  | preeditDrawNotify
  | preeditDoneNotify
deriving DecidableEq

/-- One step of the client: the state transition together with the effects
it emits.  A `posUpdateDone` step is the arrival of the completion
callback, so it is marked with `Effect.completeCb` in the trace. -/
def stepOp (s : ImeClient) (op : Op) : ImeClient × List Effect :=
  match op with
  | Op.updatePos w x y =>
      let r := update_pos s w x y
      (r.1, r.2.1)
  | Op.processEvent rt f =>
      let r := process_event s rt f
      (r.1, r.2.1)
  | Op.posUpdateDone ic =>
      let r := update_pos_callback s ic
      (r.1, Effect.completeCb :: r.2)
  | Op.openDone => open_callback s
  | Op.icCreated n => create_ic_callback s n
  | Op.disconnected => (disconnected_callback s, [])
  | Op.commitStringNotify text => commit_string_callback s text
  | Op.forwardEventNotify rt => forward_event_callback s rt
  | Op.preeditStartNotify => preedit_start_callback s
  | Op.preeditDrawNotify => preedit_draw_callback s
  | Op.preeditDoneNotify => preedit_done_callback s

/-- Run a sequence of interactions, concatenating the emitted effects. -/
def run (s : ImeClient) : List Op → ImeClient × List Effect
  | [] => (s, [])
  | op :: ops =>
      let r1 := stepOp s op
      let r2 := run r1.1 ops
      (r2.1, r1.2 ++ r2.2)

/-- Frame lemma: `process_event` never mutates the client state: every branch returns the
receiver unchanged (in particular `try_open_ic` only emits the open call). -/
theorem process_event_preserves_state (s : ImeClient) (rt : Nat) (f : Bool) :
    (process_event s rt f).1 = s := by
  by_cases hk : rt &&& 0x7f = XCB_KEY_PRESS ∨
      rt &&& 0x7f = XCB_KEY_RELEASE <;>
    cases f <;> cases hic : s.ic <;>
    simp [process_event, try_open_ic, hk, hic]

/-- An unfiltered key event with no context triggers exactly one
`xcb_xim_open` call, leaves the state unchanged and returns false. -/
theorem process_event_key_no_ic (s : ImeClient) (rt : Nat)
    (hic : s.ic = none)
    (hkey : rt &&& 0x7f = XCB_KEY_PRESS ∨ rt &&& 0x7f = XCB_KEY_RELEASE) :
    process_event s rt false = (s, [Effect.openReq], false) := by
  simp [process_event, try_open_ic, hic, hkey]

/-- A run made of unfiltered key events with no context emits one open
request per event and never changes the state. -/
theorem run_keys_no_ic (ops : List Op) :
    ∀ s : ImeClient, s.ic = none →
    (∀ op ∈ ops, ∃ rt, op = Op.processEvent rt false ∧
      (rt &&& 0x7f = XCB_KEY_PRESS ∨ rt &&& 0x7f = XCB_KEY_RELEASE)) →
    run s ops = (s, List.replicate ops.length Effect.openReq) := by
  induction ops with
  | nil => intro s _ _; rfl
  | cons op ops ih =>
      intro s hic hk
      obtain ⟨rt, hop, hkey⟩ := hk op (List.mem_cons_self op ops)
      subst hop
      have h1 : stepOp s (Op.processEvent rt false) = (s, [Effect.openReq]) := by
        simp [stepOp, process_event_key_no_ic s rt hic hkey]
      have h2 := ih s hic (fun o ho => hk o (List.mem_cons_of_mem _ ho))
      simp [run, h1, h2, List.replicate_succ]

/-- Claim C1: the spec says a filter-consumed event makes `process_event`
return true immediately; the source instead falls through to the final
`false` with no effects, so a consumed event is reported as unhandled
(contradicting the method's own doc comment as well). -/
theorem C1_filter_consumed_event_not_handled (s : ImeClient) (rt : Nat) :
    process_event s rt true = (s, [], false) := by
  simp [process_event]

/-- Claim C5: every placement send issues exactly one attribute update whose
window-binding attributes are present if and only if the requested window
differs from the current placement's window; otherwise only the
spot-location attribute is sent; and the current placement is set to the
requested one immediately after the send. -/
theorem C5_window_change_detection (s : ImeClient) (ic0 : Nat) :
    (send_pos_update s ic0).2 =
      [Effect.setIcValues ic0 (icValueAttrs s.pos_req s.pos_cur)] ∧
    ((IcAttr.clientWindow s.pos_req.win ∈ icValueAttrs s.pos_req s.pos_cur ∧
      IcAttr.focusWindow s.pos_req.win ∈ icValueAttrs s.pos_req s.pos_cur) ↔
      s.pos_req.win ≠ s.pos_cur.win) ∧
    (icValueAttrs s.pos_req s.pos_cur =
        [IcAttr.preeditSpot s.pos_req.x s.pos_req.y] ↔
      s.pos_req.win = s.pos_cur.win) ∧
    IcAttr.preeditSpot s.pos_req.x s.pos_req.y ∈
      icValueAttrs s.pos_req s.pos_cur ∧
    (send_pos_update s ic0).1.pos_cur = s.pos_req := by
  refine ⟨rfl, ?_, ?_, ?_, rfl⟩ <;>
    by_cases h : s.pos_req.win = s.pos_cur.win <;>
    simp [icValueAttrs, h]

/-- Claim C6: `update_pos` records the requested placement unconditionally
(overwriting any previous request) and returns true exactly when a context
exists and no update is in flight. -/
theorem C6_update_pos_contract (s : ImeClient) (w : Nat) (x y : Int) :
    (update_pos s w x y).1.pos_req = { win := w, x := x, y := y } ∧
    ((update_pos s w x y).2.2 = true ↔
      s.ic.isSome = true ∧ s.is_processing_pos_update = false) := by
  obtain ⟨ic, cb, st, pc, pr, proc, q⟩ := s
  cases ic <;> cases proc <;>
    simp [update_pos, send_pos_update, try_open_ic]

/-- Claim C8: when the compound-text conversion routine yields a null
result, decoding returns the empty string; no error is propagated (the
function is total). -/
theorem C8_null_conversion_yields_empty (bytes : List Nat)
    (convert : List Nat → Option (List Nat)) (h : convert bytes = none) :
    xim_encoding_to_utf8 XimEncoding.compoundText bytes convert = [] := by
  simp [xim_encoding_to_utf8, h]

/-- Witness for C8 at a concrete byte string and the always-null converter. -/
theorem C8_null_conversion_witness :
    xim_encoding_to_utf8 XimEncoding.compoundText [67, 84] (fun _ => none)
      = [] :=
  C8_null_conversion_yields_empty [67, 84] (fun _ => none) rfl

/-- Claim C9: the disconnect handler clears the context handle and leaves
every other client field unchanged, in particular the in-flight flag, the
queued-update flag and both placements. -/
theorem C9_disconnect_clears_only_ic (s : ImeClient) :
    (disconnected_callback s).ic = none ∧
    (disconnected_callback s).is_processing_pos_update
      = s.is_processing_pos_update ∧
    (disconnected_callback s).pos_update_queued = s.pos_update_queued ∧
    (disconnected_callback s).pos_cur = s.pos_cur ∧
    (disconnected_callback s).pos_req = s.pos_req ∧
    (disconnected_callback s).callbacks = s.callbacks ∧
    (disconnected_callback s).input_style = s.input_style :=
  ⟨rfl, rfl, rfl, rfl, rfl, rfl, rfl⟩

/-- Counterexample to claim C2: two key-press calls of `process_event`
while no context exists issue two open requests, not exactly one —
`try_open_ic` has no Opening state and re-calls `xcb_xim_open` on every
key event until the context-created callback stores a handle. -/
theorem C2_second_key_press_issues_second_open :
    (run (initClient 0)
        [Op.processEvent 2 false, Op.processEvent 2 false]).2
      = [Effect.openReq, Effect.openReq] ∧
    ¬ ((run (initClient 0)
        [Op.processEvent 2 false, Op.processEvent 2 false]).2.count
          Effect.openReq = 1) := by
  decide

/-- Claim C2 (amended): every `process_event` call carrying an unfiltered
key event while no context exists returns false and issues exactly one
open request, so N such calls issue N open requests; `try_open_ic`
suppresses the open only once the context handle exists. -/
theorem C2_every_key_press_without_context_issues_open (s : ImeClient)
    (ops : List Op) (hic : s.ic = none)
    (hkeys : ∀ op ∈ ops, ∃ rt, op = Op.processEvent rt false ∧
      (rt &&& 0x7f = XCB_KEY_PRESS ∨ rt &&& 0x7f = XCB_KEY_RELEASE)) :
    run s ops = (s, List.replicate ops.length Effect.openReq) ∧
    ∀ rt, (rt &&& 0x7f = XCB_KEY_PRESS ∨ rt &&& 0x7f = XCB_KEY_RELEASE) →
      process_event s rt false = (s, [Effect.openReq], false) :=
  ⟨run_keys_no_ic ops s hic hkeys,
   fun rt hkey => process_event_key_no_ic s rt hic hkey⟩

/-- Witness for the amended C2 on a fresh client and two key events. -/
theorem C2_open_requests_witness :
    run (initClient 0) [Op.processEvent 2 false, Op.processEvent 3 false]
      = (initClient 0, [Effect.openReq, Effect.openReq]) ∧
    process_event (initClient 0) 2 false
      = (initClient 0, [Effect.openReq], false) := by
  have hk : ∀ op ∈ [Op.processEvent 2 false, Op.processEvent 3 false],
      ∃ rt, op = Op.processEvent rt false ∧
        (rt &&& 0x7f = XCB_KEY_PRESS ∨ rt &&& 0x7f = XCB_KEY_RELEASE) := by
    intro op hop
    rcases List.mem_cons.mp hop with h1 | h1
    · exact ⟨2, h1, Or.inl (by decide)⟩
    · exact ⟨3, List.mem_singleton.mp h1, Or.inr (by decide)⟩
  have h := C2_every_key_press_without_context_issues_open (initClient 0)
      [Op.processEvent 2 false, Op.processEvent 3 false] rfl hk
  exact ⟨h.1, h.2 2 (Or.inl (by decide))⟩

/-- The client state refuting claim C7: DEFAULT input style with an
installed preedit-draw handler. -/
def c7Client : ImeClient :=
  { initClient 0 with
      callbacks := { Callbacks.default with preedit_draw := true } }

/-- Counterexample to claim C7: with InputStyle DEFAULT (the
PREEDIT_CALLBACKS bit clear) a delivered preedit-draw notification still
invokes the installed user callback — the dispatch functions contain no
style check. -/
theorem C7_default_style_still_invokes_preedit_draw :
    c7Client.input_style &&& PREEDIT_CALLBACKS = 0 ∧
    c7Client.callbacks.preedit_draw = true ∧
    (preedit_draw_callback c7Client).2 = [Effect.userPreeditDraw 0] := by
  decide

/-- Claim C7 (amended): each delivered preedit notification invokes its
corresponding installed callback exactly once, for every InputStyle; the
client performs no style gating itself (absence of callbacks under
DEFAULT relies on the server not delivering notifications for a context
created without PREEDIT_CALLBACKS). -/
theorem C7_notification_maps_to_callback (s : ImeClient) (ops : List Op)
    (hs : s.callbacks.preedit_start = true)
    (hd : s.callbacks.preedit_draw = true)
    (hdone : s.callbacks.preedit_done = true)
    (hops : ∀ op ∈ ops, op = Op.preeditStartNotify ∨
      op = Op.preeditDrawNotify ∨ op = Op.preeditDoneNotify) :
    (run s ops).1 = s ∧
    (run s ops).2.count (Effect.userPreeditStart s.pos_req.win)
      = ops.count Op.preeditStartNotify ∧
    (run s ops).2.count (Effect.userPreeditDraw s.pos_req.win)
      = ops.count Op.preeditDrawNotify ∧
    (run s ops).2.count (Effect.userPreeditDone s.pos_req.win)
      = ops.count Op.preeditDoneNotify := by
  revert hops
  induction ops with
  | nil => intro _; exact ⟨rfl, rfl, rfl, rfl⟩
  | cons op ops ih =>
      intro hops
      have hop := hops op (List.mem_cons_self op ops)
      have hrest := ih (fun o ho => hops o (List.mem_cons_of_mem _ ho))
      rcases hop with h | h | h <;> subst h <;>
        simp [run, stepOp, preedit_start_callback, preedit_draw_callback,
              preedit_done_callback, hs, hd, hdone, hrest.1,
              List.count_cons, hrest.2.1, hrest.2.2.1, hrest.2.2.2]

/-- The client state for the C7 witness: every preedit slot installed. -/
def c7AllClient : ImeClient :=
  { initClient PREEDIT_CALLBACKS with
      callbacks := { commit_string := false, forward_event := false,
                     preedit_start := true, preedit_draw := true,
                     preedit_done := true } }

/-- Witness for the amended C7 on a concrete notification sequence. -/
theorem C7_notification_witness :
    (run c7AllClient [Op.preeditStartNotify, Op.preeditDrawNotify,
        Op.preeditDrawNotify, Op.preeditDoneNotify]).1 = c7AllClient ∧
    (run c7AllClient [Op.preeditStartNotify, Op.preeditDrawNotify,
        Op.preeditDrawNotify, Op.preeditDoneNotify]).2.count
        (Effect.userPreeditStart c7AllClient.pos_req.win)
      = [Op.preeditStartNotify, Op.preeditDrawNotify, Op.preeditDrawNotify,
          Op.preeditDoneNotify].count Op.preeditStartNotify ∧
    (run c7AllClient [Op.preeditStartNotify, Op.preeditDrawNotify,
        Op.preeditDrawNotify, Op.preeditDoneNotify]).2.count
        (Effect.userPreeditDraw c7AllClient.pos_req.win)
      = [Op.preeditStartNotify, Op.preeditDrawNotify, Op.preeditDrawNotify,
          Op.preeditDoneNotify].count Op.preeditDrawNotify ∧
    (run c7AllClient [Op.preeditStartNotify, Op.preeditDrawNotify,
        Op.preeditDrawNotify, Op.preeditDoneNotify]).2.count
        (Effect.userPreeditDone c7AllClient.pos_req.win)
      = [Op.preeditStartNotify, Op.preeditDrawNotify, Op.preeditDrawNotify,
          Op.preeditDoneNotify].count Op.preeditDoneNotify :=
  C7_notification_maps_to_callback c7AllClient
    [Op.preeditStartNotify, Op.preeditDrawNotify, Op.preeditDrawNotify,
      Op.preeditDoneNotify] rfl rfl rfl (by decide)

/-- The C10 invariant: a queued placement update implies one is in flight. -/
def QueuedImpliesInFlight (s : ImeClient) : Prop :=
  s.pos_update_queued = true → s.is_processing_pos_update = true

/-- Claim C10: the freshly constructed client satisfies the queued-implies-
in-flight implication, and every operation — both public methods and every
Protocol Engine callback — preserves it. -/
theorem C10_queued_implies_in_flight_invariant :
    (∀ style, QueuedImpliesInFlight (initClient style)) ∧
    ∀ (s : ImeClient) (op : Op), QueuedImpliesInFlight s →
      QueuedImpliesInFlight (stepOp s op).1 := by
  constructor
  · intro style h
    simp [initClient] at h
  · intro s op hinv
    cases op with
    | updatePos w x y =>
        obtain ⟨ic, cb, st, pc, pr, proc, q⟩ := s
        cases ic <;> cases proc <;>
          simp_all [stepOp, update_pos, send_pos_update, try_open_ic,
                    QueuedImpliesInFlight]
    | processEvent rt f =>
        have h := process_event_preserves_state s rt f
        unfold QueuedImpliesInFlight at hinv ⊢
        simp only [stepOp, h]
        exact hinv
    | posUpdateDone ic2 =>
        obtain ⟨ic, cb, st, pc, pr, proc, q⟩ := s
        cases q <;>
          simp_all [stepOp, update_pos_callback, send_pos_update,
                    QueuedImpliesInFlight]
    | openDone => exact hinv
    | icCreated n => exact hinv
    | disconnected => exact hinv
    | commitStringNotify text => exact hinv
    | forwardEventNotify rt => exact hinv
    | preeditStartNotify => exact hinv
    | preeditDrawNotify => exact hinv
    | preeditDoneNotify => exact hinv

/-- Witness for C10: the invariant holds initially and survives a concrete
queueing step. -/
theorem C10_invariant_witness :
    QueuedImpliesInFlight (initClient 0) ∧
    QueuedImpliesInFlight
      (stepOp (initClient 0) (Op.updatePos 7 10 20)).1 :=
  ⟨C10_queued_implies_in_flight_invariant.1 0,
   C10_queued_implies_in_flight_invariant.2 (initClient 0)
     (Op.updatePos 7 10 20)
     (C10_queued_implies_in_flight_invariant.1 0)⟩

/-- View a `(window, x, y)` argument triple of `update_pos` as a placement. -/
def tripleToPos (t : Nat × Int × Int) : ImePos :=
  { win := t.1, x := t.2.1, y := t.2.2 }

/-- The interaction sequence of a list of `update_pos` calls. -/
def callsToOps : List (Nat × Int × Int) → List Op
  | [] => []
  | t :: rest => Op.updatePos t.1 t.2.1 t.2.2 :: callsToOps rest

/-- While an update is in flight on an open context, a nonempty sequence of
`update_pos` calls emits nothing: it only overwrites `pos_req` with the
last call's arguments and raises the queued flag. -/
theorem run_inflight_queues (ic0 : Nat) (calls : List (Nat × Int × Int)) :
    ∀ (s : ImeClient) (d : Nat × Int × Int), s.ic = some ic0 →
      s.is_processing_pos_update = true → calls ≠ [] →
      run s (callsToOps calls)
        = ({ s with pos_req := tripleToPos (calls.getLastD d),
                    pos_update_queued := true }, []) := by
  induction calls with
  | nil => intro s d _ _ hne; exact absurd rfl hne
  | cons t rest ih =>
      intro s d hic hproc _
      cases rest with
      | nil =>
          simp [callsToOps, run, stepOp, update_pos, hic, hproc, tripleToPos,
                List.getLastD]
      | cons t2 rest2 =>
          have hstep : stepOp s (Op.updatePos t.1 t.2.1 t.2.2)
              = ({ s with pos_req := tripleToPos t,
                          pos_update_queued := true }, []) := by
            simp [stepOp, update_pos, hic, hproc, tripleToPos]
          have hrest := ih
            { s with pos_req := tripleToPos t, pos_update_queued := true }
            t (by simpa using hic) (by simpa using hproc) (by simp)
          have hall : run s (callsToOps (t :: t2 :: rest2))
              = run { s with pos_req := tripleToPos t,
                             pos_update_queued := true }
                  (callsToOps (t2 :: rest2)) := by
            show run s (Op.updatePos t.1 t.2.1 t.2.2 ::
                callsToOps (t2 :: rest2)) = _
            simp only [run, hstep, List.nil_append]
          rw [hall, hrest]
          simp only [List.getLastD_cons]

/-- Claim C3: N ≥ 1 `update_pos` calls while an update is in flight on an
open context issue no send; the completion callback then issues exactly
one send whose placement is the last call's arguments (window-binding
attributes appearing iff that window differs from the current one). -/
theorem C3_coalescing (s : ImeClient) (ic0 : Nat)
    (calls : List (Nat × Int × Int)) (hic : s.ic = some ic0)
    (hproc : s.is_processing_pos_update = true) (hne : calls ≠ []) :
    (run s (callsToOps calls)).2 = [] ∧
    (run s (callsToOps calls)).1.pos_update_queued = true ∧
    update_pos_callback (run s (callsToOps calls)).1 ic0
      = ({ s with pos_req := tripleToPos (calls.getLastD (0, 0, 0)),
                  pos_cur := tripleToPos (calls.getLastD (0, 0, 0)),
                  pos_update_queued := false,
                  is_processing_pos_update := true },
         [Effect.setIcValues ic0
            (icValueAttrs (tripleToPos (calls.getLastD (0, 0, 0)))
              s.pos_cur)]) := by
  have h := run_inflight_queues ic0 calls s (0, 0, 0) hic hproc hne
  rw [h]
  exact ⟨rfl, rfl, rfl⟩

/-- The client state for the C3 witness: open context, update in flight. -/
def c3Client : ImeClient :=
  { initClient 0 with ic := some 5, is_processing_pos_update := true }

/-- Witness for C3: two rapid calls while in flight coalesce into a single
send of the second call's arguments at completion time. -/
theorem C3_coalescing_witness :
    (run c3Client (callsToOps [(7, 10, 20), (7, 15, 25)])).2 = [] ∧
    (run c3Client
        (callsToOps [(7, 10, 20), (7, 15, 25)])).1.pos_update_queued
      = true ∧
    update_pos_callback
        (run c3Client (callsToOps [(7, 10, 20), (7, 15, 25)])).1 5
      = ({ c3Client with
              pos_req := tripleToPos
                ([(7, 10, 20), (7, 15, 25)].getLastD (0, 0, 0)),
              pos_cur := tripleToPos
                ([(7, 10, 20), (7, 15, 25)].getLastD (0, 0, 0)),
              pos_update_queued := false,
              is_processing_pos_update := true },
         [Effect.setIcValues 5
            (icValueAttrs
              (tripleToPos ([(7, 10, 20), (7, 15, 25)].getLastD (0, 0, 0)))
              c3Client.pos_cur)]) :=
  C3_coalescing c3Client 5 [(7, 10, 20), (7, 15, 25)] rfl rfl (by simp)

/-- Scanner for the at-most-one-in-flight discipline: arms on every
placement send, disarms on every completion-callback arrival, and rejects
a send that happens while armed. -/
def chkAtMostOneInFlight : Bool → List Effect → Bool
  | _, [] => true
  | armed, Effect.setIcValues _ _ :: rest =>
      if armed then false else chkAtMostOneInFlight true rest
  | _, Effect.completeCb :: rest => chkAtMostOneInFlight false rest
  | armed, _ :: rest => chkAtMostOneInFlight armed rest

/-- One step preserves the scanner: the in-flight flag of the state is
exactly the scanner's armed flag. -/
theorem chk_step (s : ImeClient) (op : Op) (rest : List Effect) :
    chkAtMostOneInFlight s.is_processing_pos_update ((stepOp s op).2 ++ rest)
      = chkAtMostOneInFlight (stepOp s op).1.is_processing_pos_update rest := by
  obtain ⟨ic, cb, st, pc, pr, proc, q⟩ := s
  obtain ⟨c1, c2, c3, c4, c5⟩ := cb
  cases op with
  | updatePos w x y =>
      cases ic <;> cases proc <;>
        simp [stepOp, update_pos, send_pos_update, try_open_ic,
              chkAtMostOneInFlight]
  | processEvent rt f =>
      by_cases hk : rt &&& 0x7f = XCB_KEY_PRESS ∨
          rt &&& 0x7f = XCB_KEY_RELEASE <;>
        cases f <;> cases ic <;>
        simp [stepOp, process_event, try_open_ic, hk, chkAtMostOneInFlight]
  | posUpdateDone ic2 =>
      cases q <;>
        simp [stepOp, update_pos_callback, send_pos_update,
              chkAtMostOneInFlight]
  | openDone => simp [stepOp, open_callback, chkAtMostOneInFlight]
  | icCreated n => simp [stepOp, create_ic_callback, chkAtMostOneInFlight]
  | disconnected => simp [stepOp, disconnected_callback, chkAtMostOneInFlight]
  | commitStringNotify text =>
      cases c1 <;>
        simp [stepOp, commit_string_callback, chkAtMostOneInFlight]
  | forwardEventNotify rt =>
      cases c2 <;>
        simp [stepOp, forward_event_callback, chkAtMostOneInFlight]
  | preeditStartNotify =>
      cases c3 <;>
        simp [stepOp, preedit_start_callback, chkAtMostOneInFlight]
  | preeditDrawNotify =>
      cases c4 <;>
        simp [stepOp, preedit_draw_callback, chkAtMostOneInFlight]
  | preeditDoneNotify =>
      cases c5 <;>
        simp [stepOp, preedit_done_callback, chkAtMostOneInFlight]

/-- Claim C4: in every state (reachable ones included) and for every
sequence of operations, no two placement-update sends occur without an
intervening completion callback between them — the trace scanner armed
with the state's in-flight flag accepts every run. -/
theorem C4_at_most_one_send_in_flight (s : ImeClient) (ops : List Op) :
    chkAtMostOneInFlight s.is_processing_pos_update (run s ops).2 = true := by
  induction ops generalizing s with
  | nil => rfl
  | cons op ops ih =>
      show chkAtMostOneInFlight s.is_processing_pos_update
        ((stepOp s op).2 ++ (run (stepOp s op).1 ops).2) = true
      rw [chk_step s op]
      exact ih (stepOp s op).1

end XcbImdkit
